import Mathlib

/-!
Verification development for the symmeplot scene-graph plotting library.

The development shallowly embeds the data model and the operations of
`symmeplot/plot_base.py` (the `PlotBase` scene-graph node), of
`symmeplot/plot_artists.py` (the `Circle3D` renderable primitive), and of
`symmeplot/matplotlib/scene.py` (the `Scene3D` driver).

Conventions of the embedding:
* Python attributes guarded by `hasattr` checks become `Option` fields
  (`none` means the private attribute was never assigned).
* Python property setters that may `raise` become functions into
  `Except PlotError _`; an `error` result models the exception propagating
  with the raising statement having performed no state write.
* Symbolic expressions and numeric values are data the plotting code never
  inspects, so they are modelled as `Nat` (expression ids) and `Int`
  (numeric values).
* The symbolic algebra engine and the rendering toolkit are external
  collaborators; the few facts needed about them (the direction cosine
  matrix of a z-rotated frame, the vertex list of a 2D circle path) are
  modelled explicitly where used.
-/

/-- A sympy `ReferenceFrame`, identified by an id; the plotting code treats
frames as atoms and only ever compares them. -/
structure SymFrame where
  fid : Nat
deriving DecidableEq, Repr

/-- A sympy `Point`, identified by an id; the plotting code treats points as
atoms and only ever compares them (`!=` in the `zero_point` setter). -/
structure SymPoint where
  pid : Nat
deriving DecidableEq, Repr

/-- A renderable artist, reduced to the extent information used by
`Scene3D.auto_zoom`: component-wise minimum and maximum of its geometry
(the `artist.min()` / `artist.max()` calls). -/
structure Artist3D where
  amin : ℚ × ℚ × ℚ
  amax : ℚ × ℚ × ℚ
deriving DecidableEq, Repr

/-- Python exceptions raised by the embedded code. The embedding keeps the
exception class and drops the message text. -/
inductive PlotError where
  | typeError
  | notImplementedError
  | indexError
deriving DecidableEq, Repr

/-- A `PlotBase` scene-graph node (`symmeplot/plot_base.py`).

Fields, in constructor order:
* `inertialFrame` — the private `_inertial_frame`; `none` models the
  attribute not existing yet (`hasattr` is false).
* `zeroPoint` — the private `_zero_point`, same convention.
* `visible` — the private `_visible` flag.
* `exprsSelf` — the result of the abstract per-subclass
  `_get_expressions_to_evaluate_self()`, modelled as per-node data.
* `values` — the private `_values` list.
* `artists` — the private `_artists` list of owned renderable primitives.
* `children` — the private `_children` list, owned exclusively.

The attributes `name` and `origin` take part in no claim and are omitted. -/
inductive PlotNode : Type where
  | mk (inertialFrame : Option SymFrame) (zeroPoint : Option SymPoint)
      (visible : Bool) (exprsSelf : List Nat) (values : List Int)
      (artists : List Artist3D) (children : List PlotNode) : PlotNode

/-- Accessor for the private `_inertial_frame` attribute. -/
def PlotNode.inertialFrame : PlotNode → Option SymFrame
  | .mk f _ _ _ _ _ _ => f

/-- Accessor for the private `_zero_point` attribute. -/
def PlotNode.zeroPoint : PlotNode → Option SymPoint
  | .mk _ zp _ _ _ _ _ => zp

/-- Accessor for the private `_visible` attribute. -/
def PlotNode.visible : PlotNode → Bool
  | .mk _ _ v _ _ _ _ => v

/-- Accessor for the per-node expression list
(`_get_expressions_to_evaluate_self`). -/
def PlotNode.exprsSelf : PlotNode → List Nat
  | .mk _ _ _ e _ _ _ => e

/-- Accessor for the private `_values` attribute. -/
def PlotNode.values : PlotNode → List Int
  | .mk _ _ _ _ vals _ _ => vals

/-- Accessor for the private `_artists` attribute. -/
def PlotNode.artistsSelf : PlotNode → List Artist3D
  | .mk _ _ _ _ _ a _ => a

/-- Accessor for the private `_children` attribute (the `children` property
returns it as a tuple, which changes nothing observable here). -/
def PlotNode.children : PlotNode → List PlotNode
  | .mk _ _ _ _ _ _ cs => cs

mutual

/-- The `inertial_frame` property setter of `PlotBase`.

Source (`plot_base.py:82-92`): a non-`ReferenceFrame` argument raises
`TypeError` (unrepresentable here because the argument is typed); otherwise,
if `_inertial_frame` already exists, `NotImplementedError` is raised before
any write; otherwise the setter first assigns the frame to every child
through the same setter and then writes `_inertial_frame`. -/
def setInertialFrame : PlotNode → SymFrame → Except PlotError PlotNode
  | .mk (some _) _ _ _ _ _ _, _ => .error .notImplementedError
  | .mk none zp v e vals a cs, nf =>
    match setInertialFrameList cs nf with
    | .error err => .error err
    | .ok cs2 => .ok (.mk (some nf) zp v e vals a cs2)

/-- The loop `for child in self._children: child.inertial_frame = ...`. -/
def setInertialFrameList : List PlotNode → SymFrame → Except PlotError (List PlotNode)
  | [], _ => .ok []
  | c :: cs, nf =>
    match setInertialFrame c nf with
    | .error err => .error err
    | .ok c2 =>
      match setInertialFrameList cs nf with
      | .error err => .error err
      | .ok cs2 => .ok (c2 :: cs2)

end

mutual

/-- The `zero_point` property setter of `PlotBase`.

Source (`plot_base.py:99-108`): if `_zero_point` already exists and the new
point differs, `NotImplementedError` is raised before any write; a
non-`Point` argument then raises `TypeError` (unrepresentable here);
otherwise the point is assigned to every child through the same setter and
`_zero_point` is written. -/
def setZeroPoint : PlotNode → SymPoint → Except PlotError PlotNode
  | .mk f (some zp) v e vals a cs, np =>
    if np ≠ zp then .error .notImplementedError
    else
      match setZeroPointList cs np with
      | .error err => .error err
      | .ok cs2 => .ok (.mk f (some np) v e vals a cs2)
  | .mk f none v e vals a cs, np =>
    match setZeroPointList cs np with
    | .error err => .error err
    | .ok cs2 => .ok (.mk f (some np) v e vals a cs2)

/-- The loop `for child in self._children: child.zero_point = ...`. -/
def setZeroPointList : List PlotNode → SymPoint → Except PlotError (List PlotNode)
  | [], _ => .ok []
  | c :: cs, np =>
    match setZeroPoint c np with
    | .error err => .error err
    | .ok c2 =>
      match setZeroPointList cs np with
      | .error err => .error err
      | .ok cs2 => .ok (c2 :: cs2)

end

/-- Direct write of a node's private `_visible` field, as performed on each
child by the `visible` setter (`child._visible = bool(is_visible)`): no
propagation of any kind. -/
def setOwnVisible : PlotNode → Bool → PlotNode
  | .mk f zp _ e vals a cs, b => .mk f zp b e vals a cs

/-- The `visible` property setter of `PlotBase`.

Source (`plot_base.py:133-137`): it writes `_visible` directly on each
direct child (not through the child's own `visible` setter) and then on
itself; it never recurses into grandchildren. -/
def setVisible : PlotNode → Bool → PlotNode
  | .mk f zp _ e vals a cs, b =>
    .mk f zp b e vals a (cs.map (fun c => setOwnVisible c b))

/-- The nested list-of-lists trees exchanged by `values` and
`get_expressions_to_evaluate`: the Python list `[head] + subs` with `head` a
flat list and `subs` the per-child subtrees. -/
inductive NTree (α : Type) : Type where
  | node (head : List α) (subs : List (NTree α)) : NTree α

/-- Shape of a nested tree: length of the head list plus the shapes of the
subtrees, the datum the spec's shape-isomorphism talks about. -/
inductive Shape : Type where
  | node (n : Nat) (subs : List Shape) : Shape

mutual

/-- Shape of an `NTree`. -/
def shapeOf {α : Type} : NTree α → Shape
  | .node head subs => .node head.length (shapeOfList subs)

/-- Shapes of a list of `NTree`s. -/
def shapeOfList {α : Type} : List (NTree α) → List Shape
  | [] => []
  | t :: ts => shapeOf t :: shapeOfList ts

end

mutual

/-- The `values` property getter of `PlotBase` (`plot_base.py:140-142`):
`[self._values] + [child.values for child in self._children]`. -/
def getValues : PlotNode → NTree Int
  | .mk _ _ _ _ vals _ cs => .node vals (getValuesList cs)

/-- The list comprehension `[child.values for child in self._children]`. -/
def getValuesList : List PlotNode → List (NTree Int)
  | [] => []
  | c :: cs => getValues c :: getValuesList cs

end

mutual

/-- The `get_expressions_to_evaluate` method of `PlotBase`
(`plot_base.py:155-158`):
`[self._get_expressions_to_evaluate_self()] + [child.get_expressions_to_evaluate() for child in self._children]`. -/
def getExprs : PlotNode → NTree Nat
  | .mk _ _ _ e _ _ cs => .node e (getExprsList cs)

/-- The child list comprehension inside `get_expressions_to_evaluate`. -/
def getExprsList : List PlotNode → List (NTree Nat)
  | [] => []
  | c :: cs => getExprs c :: getExprsList cs

end

mutual

/-- The `values` property setter of `PlotBase` (`plot_base.py:144-148`):
`self._values = values[0]` followed by
`for child, vals in zip(self._children, values[1:]): child.values = vals`.
`zip` pairs up to the shorter of the two lists, so surplus subtrees are
dropped and surplus children are left untouched. -/
def setValues : PlotNode → NTree Int → PlotNode
  | .mk f zp v e _ a cs, .node vs ts => .mk f zp v e vs a (setValuesList cs ts)

/-- The `zip(self._children, values[1:])` loop of the `values` setter. -/
def setValuesList : List PlotNode → List (NTree Int) → List PlotNode
  | [], _ => []
  | cs, [] => cs
  | c :: cs, t :: ts => setValues c t :: setValuesList cs ts

end

/-- Exception behaviour of the `values` setter: its body contains no check
and no `raise` statement, so for every well-formed nested argument (one that
has a head entry, so that `values[0]` does not raise `IndexError`) it
returns normally. -/
def setValuesExc (t : PlotNode) (v : NTree Int) : Except PlotError PlotNode :=
  .ok (setValues t v)

mutual

/-- Decidable check that every node of a tree has its private `_zero_point`
set to the given point (the state the propagating setters establish). -/
def allZeroPoint : PlotNode → SymPoint → Bool
  | .mk _ zp _ _ _ _ cs, p => zp == some p && allZeroPointList cs p

/-- List version of `allZeroPoint`. -/
def allZeroPointList : List PlotNode → SymPoint → Bool
  | [], _ => true
  | c :: cs, p => allZeroPoint c p && allZeroPointList cs p

end

mutual

/-- The `artists` property of `PlotBase` (`plot_base.py:64-66`): the node's
own artists followed by every descendant's, in tree order. -/
def nodeArtists : PlotNode → List Artist3D
  | .mk _ _ _ _ _ a cs => a ++ nodeArtistsList cs

/-- The comprehension
`[artist for child in self._children for artist in child.artists]`. -/
def nodeArtistsList : List PlotNode → List Artist3D
  | [] => []
  | c :: cs => nodeArtists c ++ nodeArtistsList cs

end

mutual

/-- Modelled from the spec: the `set_visible` method of the matplotlib plot
objects used by `Scene3D.clear` lives in `symmeplot/core.py` /
`symmeplot/matplotlib/plot_base.py`, which are not part of the sources; the
spec states that the `visible` flag "propagates to descendants on write",
so the model writes the flag on the node and on every descendant. -/
def setVisibleDeep : PlotNode → Bool → PlotNode
  | .mk f zp _ e vals a cs, b => .mk f zp b e vals a (setVisibleDeepList cs b)

/-- List version of `setVisibleDeep`. -/
def setVisibleDeepList : List PlotNode → Bool → List PlotNode
  | [], _ => []
  | c :: cs, b => setVisibleDeep c b :: setVisibleDeepList cs b

end

/-- The `Scene3D` driver state (`symmeplot/matplotlib/scene.py`) reduced to
the attributes the claims touch: the plot-object children (first entry is
the inertial-frame plot object created at construction), the annotation
location mode, and the three axis limits of the owned 3D axes. -/
structure Scene where
  children : List PlotNode
  annotLocation : String
  xlim : ℚ × ℚ
  ylim : ℚ × ℚ
  zlim : ℚ × ℚ

/-- The `annot_location` property setter of `Scene3D`
(`scene.py:102-109`): the string `"object"` is stored; every other value —
including `"mouse"`, which `_update_annot` is written to handle — raises
`NotImplementedError`. -/
def setAnnotLocation (s : Scene) (loc : String) : Except PlotError Scene :=
  if loc = "object" then .ok { s with annotLocation := loc }
  else .error .notImplementedError

/-- Modelled from the spec: `SceneBase.artists` (in `symmeplot/core.py`,
not part of the sources) exposes the artists of all plot objects of the
scene; each plot object reports its own artists and its descendants', as in
`PlotBase.artists`. -/
def sceneArtists (s : Scene) : List Artist3D :=
  nodeArtistsList s.children

/-- Component-wise minimum of two extent triples (`np.min(..., axis=0)`
accumulated pairwise). -/
def min3 (u v : ℚ × ℚ × ℚ) : ℚ × ℚ × ℚ :=
  (min u.1 v.1, min u.2.1 v.2.1, min u.2.2 v.2.2)

/-- Component-wise maximum of two extent triples. -/
def max3 (u v : ℚ × ℚ × ℚ) : ℚ × ℚ × ℚ :=
  (max u.1 v.1, max u.2.1 v.2.1, max u.2.2 v.2.2)

/-- The `auto_zoom` method of `Scene3D` (`scene.py:192-204`).

The guard `if not _artists: return` leaves the scene untouched when the
artist list is empty. Otherwise `_min`/`_max` are the component-wise
extremes over all artist extents, `size = scale * max(_max - _min)`,
`extra = (size - (_max - _min)) / 2`, and the three axis limits are set to
`(_min - extra, _max + extra)` per component. -/
def autoZoom (s : Scene) (scale : ℚ) : Scene :=
  match sceneArtists s with
  | [] => s
  | a :: rest =>
    let lo := rest.foldl (fun acc b => min3 acc b.amin) a.amin
    let hi := rest.foldl (fun acc b => max3 acc b.amax) a.amax
    let size := scale * max (hi.1 - lo.1) (max (hi.2.1 - lo.2.1) (hi.2.2 - lo.2.2))
    let extra := ((size - (hi.1 - lo.1)) / 2, (size - (hi.2.1 - lo.2.1)) / 2,
      (size - (hi.2.2 - lo.2.2)) / 2)
    { s with
      xlim := (lo.1 - extra.1, hi.1 + extra.1),
      ylim := (lo.2.1 - extra.2.1, hi.2.1 + extra.2.1),
      zlim := (lo.2.2 - extra.2.2, hi.2.2 + extra.2.2) }

/-- The `clear` method of `Scene3D` (`scene.py:236-246`):
`for plot_object in self._children: plot_object.set_visible(False)` — note
the loop includes `self._children[0]`, the inertial-frame plot object —
followed by `self._children = [self._children[0]]`. On an empty child list
`self._children[0]` would raise `IndexError`; scene construction always
installs the inertial-frame plot object as first child. -/
def sceneClear (s : Scene) : Except PlotError Scene :=
  match s.children with
  | [] => .error .indexError
  | c :: _ => .ok { s with children := [setVisibleDeep c false] }

/-- Concrete leaf node shared by the witnesses: both frame and point are
assigned, one expression, one stored value, visible. -/
def leafW : PlotNode := .mk (some ⟨0⟩) (some ⟨1⟩) true [10] [5] [] []

/-- Concrete one-child tree shared by the witnesses. -/
def midW : PlotNode := .mk (some ⟨0⟩) (some ⟨1⟩) true [11] [6] [] [leafW]

/-- Concrete two-level tree (root, child, grandchild) shared by the
witnesses. -/
def rootW : PlotNode := .mk (some ⟨0⟩) (some ⟨1⟩) true [12] [7] [] [midW]

theorem getExprsList_eq_map (cs : List PlotNode) : getExprsList cs = cs.map getExprs := by
  induction cs with
  | nil => rfl
  | cons c cs ih => simp [getExprsList, ih]

theorem setValuesList_drop (cs : List PlotNode) (ts : List (NTree Int)) :
    (setValuesList cs ts).drop ts.length = cs.drop ts.length := by
  induction cs generalizing ts with
  | nil => cases ts <;> rfl
  | cons c cs ih =>
    cases ts with
    | nil => rfl
    | cons t ts => simpa [setValuesList] using ih ts

theorem setValuesList_length (cs : List PlotNode) (ts : List (NTree Int)) :
    (setValuesList cs ts).length = cs.length := by
  induction cs generalizing ts with
  | nil => cases ts <;> rfl
  | cons c cs ih =>
    cases ts with
    | nil => rfl
    | cons t ts => simp [setValuesList, ih ts]

theorem setValuesList_take (cs : List PlotNode) (ts : List (NTree Int)) :
    setValuesList cs (ts.take cs.length) = setValuesList cs ts := by
  induction cs generalizing ts with
  | nil => cases ts <;> rfl
  | cons c cs ih =>
    cases ts with
    | nil => rfl
    | cons t ts => simp [setValuesList, List.take_succ_cons, ih ts]

/-- C1 (counterexample): on the concrete one-child tree `midW`, a values
tree with a head list and zero subtrees disagrees in shape with
`get_expressions_to_evaluate()` (which has one subtree), yet the values
setter completes without any error and silently leaves the child's stored
values at their old contents — it does not fail loudly. -/
theorem values_setter_counterexample :
    shapeOf (NTree.node ([9] : List Int) []) ≠ shapeOf (getExprs midW) ∧
    setValuesExc midW (.node [9] []) =
      .ok (.mk (some ⟨0⟩) (some ⟨1⟩) true [11] [9] [] [leafW]) ∧
    (setValues midW (.node [9] [])).children.map PlotNode.values = [[5]] := by
  refine ⟨fun h => ?_, rfl, rfl⟩
  simp [shapeOf, shapeOfList, getExprs, getExprsList, midW, leafW] at h

/-- C1 (amended): the values setter performs no shape check and never
raises for a nested argument: `zip` silently truncates, so subtrees beyond
the child count are ignored and children beyond the subtree count keep
their previous values. -/
theorem values_setter_silently_truncates (t : PlotNode) (vs : List Int)
    (ts : List (NTree Int)) :
    setValuesExc t (.node vs ts) = .ok (setValues t (.node vs ts)) ∧
    (setValues t (.node vs ts)).children.drop ts.length = t.children.drop ts.length ∧
    (setValues t (.node vs ts)).children.length = t.children.length ∧
    setValuesList t.children (ts.take t.children.length) = setValuesList t.children ts := by
  cases t with
  | mk f zp v e vals a cs =>
    exact ⟨rfl, setValuesList_drop cs ts, setValuesList_length cs ts, setValuesList_take cs ts⟩

/-- C3 (counterexample): on the concrete tree `rootW`, whose grandchild
`leafW` is visible, setting `visible` to `False` on the root writes the
flag on the root and its direct child, but the grandchild stays visible. -/
theorem visible_counterexample :
    (setVisible rootW false).visible = false ∧
    (setVisible rootW false).children.map PlotNode.visible = [false] ∧
    (setVisible rootW false).children.map (fun c => c.children.map PlotNode.visible) =
      [[true]] := by
  exact ⟨rfl, rfl, rfl⟩

/-- C3 (amended): the `visible` setter writes the flag on the node itself
and on its direct children only; each direct child keeps its child list
(and hence all deeper descendants) untouched. -/
theorem visible_propagates_one_level (t : PlotNode) (b : Bool) :
    (setVisible t b).visible = b ∧
    (setVisible t b).children.map PlotNode.visible = t.children.map (fun _ => b) ∧
    (setVisible t b).children.map PlotNode.children = t.children.map PlotNode.children := by
  cases t with
  | mk f zp v e vals a cs =>
    refine ⟨rfl, ?_, ?_⟩ <;>
      · show (cs.map (fun c => setOwnVisible c b)).map _ = _
        rw [List.map_map]
        exact List.map_congr_left fun c _ => by cases c; rfl

mutual

theorem setZeroPoint_same (t : PlotNode) (p : SymPoint)
    (h : allZeroPoint t p = true) : setZeroPoint t p = .ok t := by
  cases t with
  | mk f zp v e vals a cs =>
    rw [allZeroPoint, Bool.and_eq_true, beq_iff_eq] at h
    obtain ⟨h1, h2⟩ := h
    subst h1
    rw [setZeroPoint, if_neg (by simp), setZeroPointList_same cs p h2]

theorem setZeroPointList_same (cs : List PlotNode) (p : SymPoint)
    (h : allZeroPointList cs p = true) : setZeroPointList cs p = .ok cs := by
  cases cs with
  | nil => rfl
  | cons c cs =>
    rw [allZeroPointList, Bool.and_eq_true] at h
    rw [setZeroPointList, setZeroPoint_same c p h.1, setZeroPointList_same cs p h.2]

end

/-- C4 (confirmed): on a tree whose every node has `zero_point` assigned to
`p`, reassigning `zero_point` to a different point `q` raises
`NotImplementedError` — the raise precedes every write, so the stored point
is unchanged — while reassigning to the same `p` returns normally and
leaves the whole tree exactly as it was (a no-op). -/
theorem zero_point_reassignment (t : PlotNode) (p q : SymPoint)
    (hall : allZeroPoint t p = true) :
    (q ≠ p → setZeroPoint t q = .error .notImplementedError) ∧
    setZeroPoint t p = .ok t := by
  refine ⟨fun hne => ?_, setZeroPoint_same t p hall⟩
  cases t with
  | mk f zp v e vals a cs =>
    rw [allZeroPoint, Bool.and_eq_true, beq_iff_eq] at hall
    obtain ⟨h1, _⟩ := hall
    subst h1
    rw [setZeroPoint, if_pos hne]

/-- Witness for C4: on the concrete tree `rootW` (zero point `⟨1⟩`
everywhere), reassigning to `⟨2⟩` errors and reassigning to `⟨1⟩` is the
identity. -/
theorem zero_point_reassignment_witness :
    (setZeroPoint rootW ⟨2⟩ = .error .notImplementedError) ∧
    setZeroPoint rootW ⟨1⟩ = .ok rootW := by
  have h := zero_point_reassignment rootW ⟨1⟩ ⟨2⟩ (by rfl)
  exact ⟨h.1 (by decide), h.2⟩

mutual

theorem values_roundtrip_go (t : PlotNode) (v : NTree Int)
    (h : shapeOf v = shapeOf (getExprs t)) : getValues (setValues t v) = v := by
  cases t with
  | mk f zp vis e vals a cs =>
    cases v with
    | node vs ts =>
      rw [getExprs, shapeOf, shapeOf, Shape.node.injEq] at h
      rw [setValues, getValues, values_roundtrip_go_list cs ts h.2]

theorem values_roundtrip_go_list (cs : List PlotNode) (ts : List (NTree Int))
    (h : shapeOfList ts = shapeOfList (getExprsList cs)) :
    getValuesList (setValuesList cs ts) = ts := by
  cases cs with
  | nil =>
    cases ts with
    | nil => rfl
    | cons t ts => exact absurd h (by simp [shapeOfList, getExprsList])
  | cons c cs =>
    cases ts with
    | nil => exact absurd h (by simp [shapeOfList, getExprsList])
    | cons t ts =>
      rw [getExprsList, shapeOfList, shapeOfList, List.cons.injEq] at h
      rw [setValuesList, getValuesList, values_roundtrip_go c t h.1,
        values_roundtrip_go_list cs ts h.2]

end

/-- C6 (confirmed): `get_expressions_to_evaluate()` returns the list headed
by the node's own expressions followed by one subtree per child in order,
and distributing a values tree of exactly that shape through the values
setter and reading the `values` property gives back the very same tree —
in particular the same shape (round-trip isomorphism). -/
theorem collect_distribute_roundtrip :
    (∀ t : PlotNode, getExprs t = .node t.exprsSelf (t.children.map getExprs)) ∧
    (∀ (t : PlotNode) (v : NTree Int), shapeOf v = shapeOf (getExprs t) →
      getValues (setValues t v) = v) := by
  refine ⟨fun t => ?_, fun t v h => values_roundtrip_go t v h⟩
  cases t with
  | mk f zp v e vals a cs =>
    rw [getExprs, PlotNode.exprsSelf, PlotNode.children, getExprsList_eq_map]

/-- Witness for C6: a values tree matching the shape of `midW`'s expression
tree round-trips unchanged. -/
theorem collect_distribute_roundtrip_witness :
    getValues (setValues midW (.node [9] [.node [4] []])) = .node [9] [.node [4] []] :=
  collect_distribute_roundtrip.2 midW (.node [9] [.node [4] []]) (by rfl)

/-- C10 (confirmed): once `_inertial_frame` exists, every further
assignment through the `inertial_frame` setter raises
`NotImplementedError`, with no same-value escape hatch: the setter checks
`hasattr` only, never comparing the new frame with the stored one. -/
theorem inertial_frame_reassignment_always_raises (t : PlotNode) (f : SymFrame)
    (h : t.inertialFrame.isSome = true) :
    setInertialFrame t f = .error .notImplementedError := by
  cases t with
  | mk inf zp v e vals a cs =>
    cases inf with
    | none => exact absurd h (by simp [PlotNode.inertialFrame])
    | some f0 => rfl

/-- Witness for C10: reassigning the identical frame `⟨0⟩` already stored
in `leafW` still raises. -/
theorem inertial_frame_reassignment_always_raises_witness :
    setInertialFrame leafW ⟨0⟩ = .error .notImplementedError :=
  inertial_frame_reassignment_always_raises leafW ⟨0⟩ (by rfl)

/-- Concrete scene whose single child is the inertial-frame plot object
(visible, one artist), shared by witnesses. -/
def sceneW : Scene :=
  ⟨[.mk (some ⟨0⟩) (some ⟨1⟩) true [12] [7] [⟨(0, 0, 0), (1, 1, 1)⟩] []],
    "object", (0, 1), (0, 1), (0, 1)⟩

/-- Concrete scene with no plot objects at all (hence no artists), shared
by witnesses. -/
def sceneEmptyW : Scene := ⟨[], "object", (0, 1), (2, 3), (4, 5)⟩

/-- C2 (code bug): assigning `"object"` to `annot_location` succeeds, but
assigning `"mouse"` raises `NotImplementedError` even though
`_update_annot` implements the `"mouse"` mode — the setter evaluated at the
failing input. -/
theorem annot_location_mouse_rejected :
    setAnnotLocation sceneW "object" = .ok { sceneW with annotLocation := "object" } ∧
    setAnnotLocation sceneW "mouse" = .error .notImplementedError := by
  constructor <;> rfl

/-- C5 (counterexample): on the concrete scene `sceneW`, whose only child
is the visible inertial-frame plot object, `clear()` truncates the child
list to that single entry but also sets the inertial-frame plot object (and
hence its primitives) invisible: its primitives are not exempted from the
detach loop. -/
theorem clear_counterexample :
    sceneW.children.map PlotNode.visible = [true] ∧
    (sceneClear sceneW).map (fun s => s.children.map PlotNode.visible) = .ok [false] ∧
    (sceneClear sceneW).map (fun s => s.children.length) = .ok 1 := by
  exact ⟨rfl, rfl, rfl⟩

/-- C5 (amended): on a scene with a nonempty child list, `clear()` sets
`visible` to `False` on every plot object — including the inertial-frame
first child — and truncates the child list to exactly that single, now
hidden, inertial-frame entry. -/
theorem clear_truncates_to_hidden_inertial (s : Scene) (c : PlotNode)
    (cs : List PlotNode) (h : s.children = c :: cs) :
    sceneClear s = .ok { s with children := [setVisibleDeep c false] } ∧
    (setVisibleDeep c false).visible = false := by
  constructor
  · rw [sceneClear, h]
  · cases c; rfl

/-- Witness for C5: the concrete scene `sceneW`. -/
theorem clear_truncates_to_hidden_inertial_witness :
    sceneClear sceneW =
      .ok { sceneW with
        children := [setVisibleDeep (.mk (some ⟨0⟩) (some ⟨1⟩) true [12] [7]
          [⟨(0, 0, 0), (1, 1, 1)⟩] []) false] } :=
  (clear_truncates_to_hidden_inertial sceneW _ [] (by rfl)).1

/-- C9 (confirmed): `auto_zoom` on a scene whose artist set is empty is the
identity on the scene state — in particular the x, y and z limits after the
call equal those before — and, being total, it raises nothing. -/
theorem auto_zoom_empty_noop (s : Scene) (scale : ℚ)
    (h : sceneArtists s = []) : autoZoom s scale = s := by
  unfold autoZoom
  rw [h]

/-- Witness for C9: the empty concrete scene with the default scale 1.1. -/
theorem auto_zoom_empty_noop_witness : autoZoom sceneEmptyW (11 / 10) = sceneEmptyW :=
  auto_zoom_empty_noop sceneEmptyW (11 / 10) (by rfl)

/-- A 3x3 numeric matrix, indexed as in numpy. -/
abbrev Mat3 := Fin 3 → Fin 3 → ℝ

/-- The `np.arctan2(y, x)` function: the angle of the point `(x, y)`, in
`(-π, π]`, which is exactly the argument of the complex number `x + y i`. -/
noncomputable def atan2 (y x : ℝ) : ℝ := Complex.arg (x + y * Complex.I)

/-- The `np.rad2deg` conversion, `x * 180 / π`. -/
noncomputable def rad2deg (x : ℝ) : ℝ := x * (180 / Real.pi)

/-- Result record of `Scene3D.get_euler_angels`: the `elev`/`azim`/`roll`
entries of the returned dict, in degrees. -/
structure EulerAngles where
  elev : ℝ
  azim : ℝ
  roll : ℝ

/-- The static method `Scene3D.get_euler_angels` (`scene.py:164-190`),
applied to the already-computed direction cosine matrix
`projection_frame.dcm(normal_frame)`:
`azimuth = arctan2(R[1,0], R[0,0])`, `elevation = arcsin(-R[2,0])`,
`roll = arctan2(R[2,1], R[2,2])`, each converted to degrees. -/
noncomputable def get_euler_angels (direction_matrix : Mat3) : EulerAngles :=
  { elev := rad2deg (Real.arcsin (-direction_matrix 2 0)),
    azim := rad2deg (atan2 (direction_matrix 1 0) (direction_matrix 0 0)),
    roll := rad2deg (atan2 (direction_matrix 2 1) (direction_matrix 2 2)) }

/-- Direction cosine matrix produced by the external algebra engine for a
frame obtained from the inertial frame by a rotation of `θ` about the
inertial z-axis: after `frame.orient_axis(inertial, inertial.z, θ)`, sympy
documents `frame.dcm(inertial)` as
`[[cos θ, sin θ, 0], [-sin θ, cos θ, 0], [0, 0, 1]]`.
`set_plot_as_2d` calls `get_euler_angels(self.inertial_frame, frame)`, so
this is the `direction_matrix` the method computes for such a frame; `θ = 0`
gives the identity matrix of a frame coincident with the inertial frame. -/
noncomputable def dcmZRot (θ : ℝ) : Mat3 :=
  ![![Real.cos θ, Real.sin θ, 0],
    ![-Real.sin θ, Real.cos θ, 0],
    ![0, 0, 1]]

theorem atan2_zero_one : atan2 0 1 = 0 := by
  have h : ((1 : ℝ) : ℂ) + ((0 : ℝ) : ℂ) * Complex.I = 1 := by
    push_cast
    ring
  rw [atan2, h, Complex.arg_one]

theorem atan2_neg_sin_cos (θ : ℝ) :
    ∃ k : ℤ, atan2 (-Real.sin θ) (Real.cos θ) = -θ + 2 * Real.pi * k := by
  refine ⟨⌊(Real.pi - -θ) / (2 * Real.pi)⌋, ?_⟩
  have h := Complex.arg_cos_add_sin_mul_I_sub (-θ)
  have h2 : ((Real.cos θ : ℝ) : ℂ) + ((-Real.sin θ : ℝ) : ℂ) * Complex.I =
      Complex.cos ((-θ : ℝ) : ℂ) + Complex.sin ((-θ : ℝ) : ℂ) * Complex.I := by
    push_cast [Complex.ofReal_cos, Complex.ofReal_sin]
    rw [Complex.cos_neg, Complex.sin_neg]
  rw [atan2, h2]
  linarith [h]

theorem rad2deg_zero : rad2deg 0 = 0 := by
  rw [rad2deg, zero_mul]

/-- C7 (counterexample): for a frame rotated by `θ = π/2` (90 degrees)
about the inertial z-axis, `get_euler_angels` reports an azimuth of `-90`
degrees, and `-90` is not congruent to `90` modulo `360`: the azimuth does
not equal θ (mod 360, in degrees). -/
theorem euler_angles_counterexample :
    (get_euler_angels (dcmZRot (Real.pi / 2))).azim = -90 ∧
    rad2deg (Real.pi / 2) = 90 ∧
    ¬ ∃ k : ℤ, (get_euler_angels (dcmZRot (Real.pi / 2))).azim =
      rad2deg (Real.pi / 2) + 360 * k := by
  have hpi : Real.pi ≠ 0 := Real.pi_ne_zero
  have hI : ((Real.cos (Real.pi / 2) : ℝ) : ℂ) +
      ((-Real.sin (Real.pi / 2) : ℝ) : ℂ) * Complex.I = -Complex.I := by
    rw [Real.cos_pi_div_two, Real.sin_pi_div_two]
    push_cast
    ring
  have hazim : (get_euler_angels (dcmZRot (Real.pi / 2))).azim = -90 := by
    show rad2deg (atan2 (dcmZRot (Real.pi / 2) 1 0) (dcmZRot (Real.pi / 2) 0 0)) = -90
    have h10 : dcmZRot (Real.pi / 2) 1 0 = -Real.sin (Real.pi / 2) := by simp [dcmZRot]
    have h00 : dcmZRot (Real.pi / 2) 0 0 = Real.cos (Real.pi / 2) := by simp [dcmZRot]
    rw [h10, h00, atan2, hI, Complex.arg_neg_I, rad2deg]
    field_simp
    ring
  have hdeg : rad2deg (Real.pi / 2) = 90 := by
    rw [rad2deg]
    field_simp
    ring
  refine ⟨hazim, hdeg, ?_⟩
  rintro ⟨k, hk⟩
  rw [hazim, hdeg] at hk
  have h2 : ((2 * k : ℤ) : ℝ) = -1 := by
    push_cast
    linarith
  have h3 : (2 * k : ℤ) = -1 := by exact_mod_cast h2
  omega

/-- C7 (amended): `get_euler_angels` computes
`elevation = arcsin(-R[2,0])`, `azimuth = atan2(R[1,0], R[0,0])`,
`roll = atan2(R[2,1], R[2,2])` in degrees from the direction cosine matrix;
for the identity orientation it returns elevation = azimuth = roll = 0; and
for a frame rotated by `θ` about the inertial z-axis it returns
elevation = 0, roll = 0 and azimuth == `-θ` (mod 360, in degrees) — the
sign of the azimuth is opposite to the rotation angle because sympy's
`frame.dcm(inertial)` is the transpose of the standard rotation matrix. -/
theorem euler_angles_zrot :
    (∀ R : Mat3, get_euler_angels R =
      ⟨rad2deg (Real.arcsin (-R 2 0)), rad2deg (atan2 (R 1 0) (R 0 0)),
        rad2deg (atan2 (R 2 1) (R 2 2))⟩) ∧
    get_euler_angels (dcmZRot 0) = ⟨0, 0, 0⟩ ∧
    ∀ θ : ℝ, (get_euler_angels (dcmZRot θ)).elev = 0 ∧
      (get_euler_angels (dcmZRot θ)).roll = 0 ∧
      ∃ k : ℤ, (get_euler_angels (dcmZRot θ)).azim = -(rad2deg θ) + 360 * k := by
  have hentries : ∀ θ : ℝ, dcmZRot θ 2 0 = 0 ∧ dcmZRot θ 1 0 = -Real.sin θ ∧
      dcmZRot θ 0 0 = Real.cos θ ∧ dcmZRot θ 2 1 = 0 ∧ dcmZRot θ 2 2 = 1 := by
    intro θ
    refine ⟨?_, ?_, ?_, ?_, ?_⟩ <;> simp [dcmZRot]
  have helev : ∀ θ : ℝ, (get_euler_angels (dcmZRot θ)).elev = 0 := by
    intro θ
    show rad2deg (Real.arcsin (-dcmZRot θ 2 0)) = 0
    rw [(hentries θ).1, neg_zero, Real.arcsin_zero, rad2deg_zero]
  have hroll : ∀ θ : ℝ, (get_euler_angels (dcmZRot θ)).roll = 0 := by
    intro θ
    show rad2deg (atan2 (dcmZRot θ 2 1) (dcmZRot θ 2 2)) = 0
    rw [(hentries θ).2.2.2.1, (hentries θ).2.2.2.2, atan2_zero_one, rad2deg_zero]
  have hazim : ∀ θ : ℝ, ∃ k : ℤ,
      (get_euler_angels (dcmZRot θ)).azim = -(rad2deg θ) + 360 * k := by
    intro θ
    obtain ⟨k, hk⟩ := atan2_neg_sin_cos θ
    refine ⟨k, ?_⟩
    show rad2deg (atan2 (dcmZRot θ 1 0) (dcmZRot θ 0 0)) = -(rad2deg θ) + 360 * k
    rw [(hentries θ).2.1, (hentries θ).2.2.1, hk, rad2deg, rad2deg]
    field_simp
    ring
  refine ⟨fun R => rfl, ?_, fun θ => ⟨helev θ, hroll θ, hazim θ⟩⟩
  have h0 : (get_euler_angels (dcmZRot 0)).azim = 0 := by
    obtain ⟨k, hk⟩ := hazim 0
    show rad2deg (atan2 (dcmZRot 0 1 0) (dcmZRot 0 0 0)) = 0
    have h10 : dcmZRot 0 1 0 = 0 := by simp [dcmZRot]
    have h00 : dcmZRot 0 0 0 = 1 := by simp [dcmZRot]
    rw [h10, h00, atan2_zero_one, rad2deg_zero]
  show EulerAngles.mk _ _ _ = _
  rw [EulerAngles.mk.injEq]
  exact ⟨helev 0, h0, hroll 0⟩

/-- The `np.linalg.norm` of a 3-vector. -/
noncomputable def norm3 (v : Fin 3 → ℝ) : ℝ := Real.sqrt (v 0 ^ 2 + v 1 ^ 2 + v 2 ^ 2)

/-- The `np.cross` of two 3-vectors. -/
def cross3 (a b : Fin 3 → ℝ) : Fin 3 → ℝ :=
  ![a 1 * b 2 - a 2 * b 1, a 2 * b 0 - a 0 * b 2, a 0 * b 1 - a 1 * b 0]

/-- The static method `Circle3D._rotation_matrix` (`plot_artists.py:88-105`):
`sin_angle = norm(d)`; when it is zero the identity is returned; otherwise
`d` is normalised and `M = ddt + sqrt(1 - sin_angle²) * (eye - ddt) +
sin_angle * skew` with `ddt = outer(d, d)` and
`skew = [[0, d2, -d1], [-d2, 0, d0], [d1, -d0, 0]]` (all numpy operations
element-wise). -/
noncomputable def rotation_matrix (d : Fin 3 → ℝ) : Mat3 :=
  if norm3 d = 0 then fun i j => if i = j then 1 else 0
  else
    let sin_angle := norm3 d
    let du := fun i => d i / sin_angle
    let ddt : Mat3 := fun i j => du i * du j
    let eye : Mat3 := fun i j => if i = j then 1 else 0
    let skew : Mat3 := ![![0, du 2, -du 1], ![-du 2, 0, du 0], ![du 1, -du 0, 0]]
    fun i j => ddt i j + Real.sqrt (1 - sin_angle ^ 2) * (eye i j - ddt i j) +
      sin_angle * skew i j

/-- The `np.dot` of a 3x3 matrix with a 3-vector. -/
noncomputable def dot3 (M : Mat3) (v : Fin 3 → ℝ) : Fin 3 → ℝ :=
  fun i => M i 0 * v 0 + M i 1 * v 1 + M i 2 * v 2

/-- The static method `Circle3D._get_segment3d` (`plot_artists.py:76-86`):
the normal is normalised, `d = cross(normal, (0, 0, 1))`, each 2D path
vertex `(x, y)` is mapped through `dot(M, (x, y, 0))` with
`M = _rotation_matrix(d)`, and `center[i]` is added to column `i`.
`path_2d` is the vertex list of the radius-scaled 2D circle path produced
by the rendering toolkit (`_get_2d_path`), treated as abstract data. -/
noncomputable def get_segment3d (path_2d : List (ℝ × ℝ)) (center normal : Fin 3 → ℝ) :
    List (Fin 3 → ℝ) :=
  (path_2d.map (fun p =>
    dot3 (rotation_matrix (cross3 (fun i => normal i / norm3 normal) ![0, 0, 1]))
      ![p.1, p.2, 0])).map
    (fun q => fun i => q i + center i)

theorem normalized_z : (fun i => (![0, 0, 1] : Fin 3 → ℝ) i / norm3 ![0, 0, 1]) = ![0, 0, 1] := by
  have h : norm3 ![(0 : ℝ), 0, 1] = 1 := by simp [norm3]
  funext i
  rw [h]
  simp

theorem dot3_eye (v : Fin 3 → ℝ) : dot3 (fun i j => if i = j then 1 else 0) v = v := by
  funext i
  fin_cases i <;> simp [dot3]

/-- C8 (confirmed): for a circle with `normal = (0, 0, 1)` the rotation
axis `d = cross(normalized-normal, (0, 0, 1))` is the zero vector, the
rotation matrix is the 3x3 identity, and the 3D path is exactly the 2D
circle path (of whatever radius produced it) with each vertex translated
component-wise by `center`. -/
theorem circle_normal_z_identity (path_2d : List (ℝ × ℝ)) (center : Fin 3 → ℝ) :
    cross3 (fun i => (![0, 0, 1] : Fin 3 → ℝ) i / norm3 ![0, 0, 1]) ![0, 0, 1] =
      ![0, 0, 0] ∧
    rotation_matrix
      (cross3 (fun i => (![0, 0, 1] : Fin 3 → ℝ) i / norm3 ![0, 0, 1]) ![0, 0, 1]) =
      (fun i j => if i = j then 1 else 0) ∧
    get_segment3d path_2d center ![0, 0, 1] =
      path_2d.map (fun p => fun i => (![p.1, p.2, 0] : Fin 3 → ℝ) i + center i) := by
  have hcross : cross3 (fun i => (![0, 0, 1] : Fin 3 → ℝ) i / norm3 ![0, 0, 1]) ![0, 0, 1] =
      ![0, 0, 0] := by
    rw [normalized_z]
    simp [cross3]
  have hrot : rotation_matrix
      (cross3 (fun i => (![0, 0, 1] : Fin 3 → ℝ) i / norm3 ![0, 0, 1]) ![0, 0, 1]) =
      (fun i j => if i = j then 1 else 0) := by
    rw [hcross, rotation_matrix, if_pos (by simp [norm3])]
  refine ⟨hcross, hrot, ?_⟩
  rw [get_segment3d, hrot, List.map_map]
  refine List.map_congr_left fun p _ => ?_
  funext i
  rw [Function.comp_apply, dot3_eye]
